import Mathlib

/-!
Verification of the Meteora constant-product quoting component
(`dex-meteora-cpmm`): a shallow embedding of `edge.rs` (the exact-input
quoter), `meteora_cp.rs` (the dex-facing `quote` dispatch), and the vault
share-valuation operations the quoter calls.

Machine integers are modelled as `Nat` with every Rust checked operation
made explicit (`checked_sub`, `checked_add`, `checked_mul`, `checked_div`,
`try_into`), so an arithmetic failure is an `Option.none` exactly where the
Rust `?` operator short-circuits.

The vault (`meteora_vault_cpi::Vault`), the pool fee schedule
(`meteora_cpmm_cpi::PoolFees`) and `raydium_cp_swap`'s checked ceiling
division are code this repository pulls from outside `src/`; their
definitions below are modelled from the specification and marked as such.
-/

namespace Autobahn

/-- Public keys are modelled as plain natural-number identifiers; the quoter
only moves them around, never inspects them. -/
abbrev Pubkey := Nat

/-- Largest value of a Rust `u64`. -/
def u64max : Nat := 2 ^ 64 - 1

/-- Number of values of a Rust `u128`: a `u128` computation overflows when it
reaches this bound. -/
def u128size : Nat := 2 ^ 128

/-- Rust `checked_sub` on an unsigned integer: `none` on underflow. -/
def checked_sub (a b : Nat) : Option Nat :=
  if b ≤ a then some (a - b) else none

/-- Rust `u64::checked_add`: `none` when the sum overflows 64 bits. -/
def checked_add_u64 (a b : Nat) : Option Nat :=
  if a + b ≤ u64max then some (a + b) else none

/-- Rust `u128::checked_mul`: `none` when the product overflows 128 bits. -/
def checked_mul_u128 (a b : Nat) : Option Nat :=
  if a * b < u128size then some (a * b) else none

/-- Rust `u128::checked_add`: `none` when the sum overflows 128 bits. -/
def checked_add_u128 (a b : Nat) : Option Nat :=
  if a + b < u128size then some (a + b) else none

/-- Rust `checked_div` on unsigned integers: `none` on a zero divisor; `Nat`
division already floors. -/
def checked_div (a b : Nat) : Option Nat :=
  if b = 0 then none else some (a / b)

/-- Rust `u64::try_from` on a `u128` value: `none` when the value does not
fit in 64 bits. -/
def try_into_u64 (a : Nat) : Option Nat :=
  if a ≤ u64max then some a else none

/-- Ceiling division on naturals (`(a + b - 1) / b`). -/
def ceilDiv (a b : Nat) : Nat := (a + b - 1) / b

/-- Modelled from the spec: `raydium_cp_swap::utils::CheckedCeilDiv`, used at
`edge.rs:164`, is not code under `src/`. Spec §4.2 step 8 fixes its contract:
`new_destination = ceiling(invariant / new_source)`, built from checked
division, so it fails exactly on a zero divisor. Only the quotient component
of the Rust pair is consumed by the quoter. -/
def checked_ceil_div (a b : Nat) : Option Nat :=
  if b = 0 then none else some (ceilDiv a b)

/-- Modelled from the spec: `meteora_vault_cpi::Vault` is not code under
`src/`. Per spec §3 and §4.1 a vault holds a total deposited amount plus a
time-dependent accrual rule that determines how much of that total is
unlocked at a given timestamp; §9 leaves the exact accrual formula open, so
it is modelled as an arbitrary locked-profit schedule `locked_profit`
(timestamp to still-locked amount), which subsumes any concrete rule. -/
structure Vault where
  total_amount : Nat
  locked_profit : Nat → Nat

/-- Modelled from the spec (§4.1): the unlocked portion of the vault's total
at `current_time`; checked subtraction of the still-locked profit. -/
def Vault.get_unlocked_amount (v : Vault) (current_time : Nat) : Option Nat :=
  checked_sub v.total_amount (v.locked_profit current_time)

/-- Modelled from the spec (§4.1 `amount_for_shares`): the token amount
currently redeemable for `share` out of `total_supply` outstanding shares —
the pro-rata part `share * unlocked / total_supply` of the unlocked total,
computed in checked 128-bit arithmetic with floor division, converted back
to 64 bits; fails on overflow or a degenerate zero-supply state. -/
def Vault.get_amount_by_share (v : Vault) (current_time share total_supply : Nat) :
    Option Nat := do
  let total ← v.get_unlocked_amount current_time
  let p ← checked_mul_u128 share total
  let q ← checked_div p total_supply
  try_into_u64 q

/-- Modelled from the spec (§4.1 `shares_for_amount`): how many new shares
depositing `amount` tokens mints at this instant — the pro-rata part
`amount * total_supply / unlocked`, computed in checked 128-bit arithmetic
with floor division, converted back to 64 bits; fails on overflow or a
degenerate empty vault. -/
def Vault.get_unmint_amount (v : Vault) (current_time amount total_supply : Nat) :
    Option Nat := do
  let total ← v.get_unlocked_amount current_time
  let p ← checked_mul_u128 amount total_supply
  let q ← checked_div p total
  try_into_u64 q

/-- The one field of an SPL token account the quoter reads
(`anchor_spl::token::spl_token::state::Account`). -/
structure TokenAccount where
  amount : Nat
deriving DecidableEq

/-- The one field of an SPL mint the quoter reads
(`anchor_spl::token::spl_token::state::Mint`). -/
structure MintAccount where
  supply : Nat
deriving DecidableEq

/-- Modelled from the spec: `meteora_cpmm_cpi::PoolFees` is not code under
`src/`. Spec §4.2 step 3 fixes only that the trading fee and the owner fee
are checked functions of the nominal input with protocol-defined rounding,
so the schedule is modelled as a pair of arbitrary checked fee functions. -/
structure Fees where
  trading_fee : Nat → Option Nat
  owner_trading_fee : Nat → Option Nat

/-- Modelled from the spec (§3): the pool's curve-type tag; only the
constant-product tag is handled, every other tag is inapplicable. -/
inductive CurveType where
  | constantProduct
  | otherCurve
deriving DecidableEq

/-- The fields of `meteora_cpmm_cpi::Pool` the quoting path reads. -/
structure Pool where
  token_a_mint : Pubkey
  token_b_mint : Pubkey
  fees : Fees
  enabled : Bool
  curve_type : CurveType

/-- `MeteoraCpEdge` from `edge.rs:49`: the immutable snapshot of pool, both
vaults, their token reserves, the pool's vault-LP holdings and the vault LP
mints, from which one quote is computed. -/
structure MeteoraCpEdge where
  pool : Pool
  a_vault : Vault
  b_vault : Vault
  a_vault_token : TokenAccount
  b_vault_token : TokenAccount
  a_vault_lp_token : TokenAccount
  b_vault_lp_token : TokenAccount
  a_vault_lp_mint : MintAccount
  b_vault_lp_mint : MintAccount

/-- `router_lib::dex::Quote`: the output record of one quote. -/
structure Quote where
  in_amount : Nat
  out_amount : Nat
  fee_amount : Nat
  fee_mint : Pubkey
deriving DecidableEq

/-- Every intermediate value of `quote_exact_in` (`edge.rs:74` to
`edge.rs:152`) up to — not including — the invariant solve, one field per
`let` binding of the source. -/
structure QuoteIntermediates where
  token_a_amount : Nat
  token_b_amount : Nat
  in_token_total_amount : Nat
  out_token_total_amount : Nat
  trade_fee : Nat
  owner_fee : Nat
  in_amount_after_owner_fee : Nat
  in_lp : Nat
  after_in_token_total_amount : Nat
  actual_in_amount : Nat
  actual_in_amount_after_fee : Nat
deriving DecidableEq

/-- `edge.rs:74-152`: before-balances of both sides via share valuation,
direction resolution, the two fees of the raw input, the owner-fee
deduction, and the simulated deposit on a scratch copy of the input vault
(`in_lp` minted at the current supply, the vault total bumped by the net
amount, the after-balance revalued at the bumped share count and supply)
yielding the actual credited input, then the trading-fee deduction. -/
def quote_intermediates (e : MeteoraCpEdge) (current_time amount_in : Nat)
    (is_a_to_b : Bool) : Option QuoteIntermediates := do
  let token_a_amount ← e.a_vault.get_amount_by_share current_time
    e.a_vault_lp_token.amount e.a_vault_lp_mint.supply
  let token_b_amount ← e.b_vault.get_amount_by_share current_time
    e.b_vault_lp_token.amount e.b_vault_lp_mint.supply
  let in_vault := if is_a_to_b then e.a_vault else e.b_vault
  let in_vault_lp := if is_a_to_b then e.a_vault_lp_token else e.b_vault_lp_token
  let in_vault_lp_mint := if is_a_to_b then e.a_vault_lp_mint else e.b_vault_lp_mint
  let in_token_total_amount := if is_a_to_b then token_a_amount else token_b_amount
  let out_token_total_amount := if is_a_to_b then token_b_amount else token_a_amount
  let trade_fee ← e.pool.fees.trading_fee amount_in
  let owner_fee ← e.pool.fees.owner_trading_fee amount_in
  let owner_fee64 ← try_into_u64 owner_fee
  let in_amount_after_owner_fee ← checked_sub amount_in owner_fee64
  let before_in_token_total_amount := in_token_total_amount
  let in_lp ← in_vault.get_unmint_amount current_time in_amount_after_owner_fee
    in_vault_lp_mint.supply
  let new_total ← checked_add_u64 in_vault.total_amount in_amount_after_owner_fee
  let shares ← checked_add_u64 in_lp in_vault_lp.amount
  let new_supply ← checked_add_u64 in_vault_lp_mint.supply in_lp
  let after_in_token_total_amount ←
    Vault.get_amount_by_share { in_vault with total_amount := new_total }
      current_time shares new_supply
  let actual_in_amount ← checked_sub after_in_token_total_amount
    before_in_token_total_amount
  let trade_fee64 ← try_into_u64 trade_fee
  let actual_in_amount_after_fee ← checked_sub actual_in_amount trade_fee64
  some ⟨token_a_amount, token_b_amount, in_token_total_amount,
    out_token_total_amount, trade_fee64, owner_fee64, in_amount_after_owner_fee,
    in_lp, after_in_token_total_amount, actual_in_amount,
    actual_in_amount_after_fee⟩

/-- `edge.rs:154-174`: the constant-product invariant solve. The invariant
is the 128-bit product of the before-balances, the new source balance adds
the fee-adjusted credited input, the new destination balance is the checked
ceiling quotient, and the swapped destination amount is the checked
difference, filtered to be nonzero. -/
def invariant_swap (swap_source_amount swap_destination_amount source_amount : Nat) :
    Option Nat := do
  let invariant ← checked_mul_u128 swap_source_amount swap_destination_amount
  let new_swap_source_amount ← checked_add_u128 swap_source_amount source_amount
  let new_swap_destination_amount ← checked_ceil_div invariant new_swap_source_amount
  let d ← checked_sub swap_destination_amount new_swap_destination_amount
  if d = 0 then none else some d

/-- `MeteoraCpEdge::quote_exact_in` (`edge.rs:68-196`): the intermediate
computation, the invariant solve on the resolved before-balances and the
fee-adjusted credited input, the double share round-trip of the swapped
amount through the output vault, and the reserve-sufficiency check against
the output vault's underlying token account. -/
def quote_exact_in (e : MeteoraCpEdge) (current_time amount_in : Nat)
    (is_a_to_b : Bool) : Option Quote := do
  let p ← quote_intermediates e current_time amount_in is_a_to_b
  let destination_amount_swapped ← invariant_swap p.in_token_total_amount
    p.out_token_total_amount p.actual_in_amount_after_fee
  let out_vault := if is_a_to_b then e.b_vault else e.a_vault
  let out_vault_lp_mint := if is_a_to_b then e.b_vault_lp_mint else e.a_vault_lp_mint
  let out_vault_token_account := if is_a_to_b then e.b_vault_token else e.a_vault_token
  let in_mint := if is_a_to_b then e.pool.token_a_mint else e.pool.token_b_mint
  let out_vault_lp ← out_vault.get_unmint_amount current_time
    destination_amount_swapped out_vault_lp_mint.supply
  let out_amount ← out_vault.get_amount_by_share current_time out_vault_lp
    out_vault_lp_mint.supply
  if out_amount > out_vault_token_account.amount then none
  else some ⟨amount_in, out_amount, p.trade_fee, in_mint⟩

/-- The defined zero quote of `meteora_cp.rs:227-232`: all amounts zero, fee
denominated in the pool's token A mint. -/
def zero_quote (pool : Pool) : Quote :=
  ⟨0, 0, 0, pool.token_a_mint⟩

/-- `MeteoraCpDex::quote` (`meteora_cp.rs:213-261`): a disabled pool or a
non-constant-product curve yields the zero quote before anything else runs;
then the clock account is read (a missing clock is the only hard error of
this path, `meteora_cp.rs:248`); a successful inner quote is returned as is,
and a failed inner quote is mapped to the zero quote. -/
def dex_quote (e : MeteoraCpEdge) (clock : Option Nat) (amount_in : Nat)
    (is_a_to_b : Bool) : Except Unit Quote :=
  if e.pool.enabled = false then Except.ok (zero_quote e.pool)
  else if e.pool.curve_type ≠ CurveType.constantProduct then
    Except.ok (zero_quote e.pool)
  else
    match clock with
    | none => Except.error ()
    | some current_time =>
      match quote_exact_in e current_time amount_in is_a_to_b with
      | some q => Except.ok q
      | none => Except.ok (zero_quote e.pool)

/-- `MeteoraCpDex::supports_exact_out` (`meteora_cp.rs:286-288`): always
false, for every edge identifier. -/
def supports_exact_out : Bool := false

/-- Outcome of a call to `quote_exact_out`: either an abort of the whole
process with a message, or a returned quote value. -/
inductive ExactOutOutcome where
  | aborted (msg : String)
  | returned (q : Quote)
deriving DecidableEq

/-- `MeteoraCpDex::quote_exact_out` (`meteora_cp.rs:290-298`): the body is
`unreachable!("quote_exact_out not supported")` — it aborts unconditionally,
for every requested output amount, and never builds a quote or an error
value. -/
def quote_exact_out (_out_amount : Nat) : ExactOutOutcome :=
  ExactOutOutcome.aborted "quote_exact_out not supported"

/-! ### Concrete fixtures used by witnesses and counterexamples -/

/-- A fee schedule whose two rates are zero — the degenerate but legal
instance of the modelled fee schedule. -/
def zeroFees : Fees := ⟨fun _ => some 0, fun _ => some 0⟩

/-- A vault accrual schedule with nothing locked at any timestamp. -/
def noLock : Nat → Nat := fun _ => 0

/-- An enabled constant-product pool with zero fees. -/
def poolMain : Pool := ⟨1, 2, zeroFees, true, CurveType.constantProduct⟩

/-- A healthy edge snapshot: input side worth 1000 (500 LP shares of supply
500 on a 1000-token vault), output side worth 2000. -/
def edgeMain : MeteoraCpEdge :=
  ⟨poolMain, ⟨1000, noLock⟩, ⟨2000, noLock⟩, ⟨1000⟩, ⟨2000⟩, ⟨500⟩, ⟨1000⟩,
    ⟨500⟩, ⟨1000⟩⟩

/-- The intermediates `edgeMain` produces at time 0 for input 100, A to B. -/
def interMain : QuoteIntermediates :=
  ⟨1000, 2000, 1000, 2000, 0, 0, 100, 50, 1100, 100, 100⟩

/-- `edgeMain` with the pool disabled. -/
def edgeDisabled : MeteoraCpEdge :=
  { edgeMain with pool := { poolMain with enabled := false } }

/-- An enabled constant-product edge whose input-side LP mint has supply
zero, so the very first share valuation fails (division by zero). -/
def edgeFailSupply : MeteoraCpEdge :=
  { edgeMain with a_vault_lp_mint := ⟨0⟩ }

/-- An edge whose input side is worth exactly zero (the pool holds no shares
of the input vault) while the output side is worth 2: with a zero input
amount the invariant solve is reached with `swap_source_amount = 0` and
`source_amount = 0`. -/
def edgeDivZero : MeteoraCpEdge :=
  ⟨poolMain, ⟨10, noLock⟩, ⟨2, noLock⟩, ⟨0⟩, ⟨2⟩, ⟨0⟩, ⟨1⟩, ⟨1⟩, ⟨1⟩⟩

/-- The intermediates `edgeDivZero` produces at time 0 for input 0, A to B. -/
def interDivZero : QuoteIntermediates :=
  ⟨0, 2, 0, 2, 0, 0, 0, 0, 0, 0, 0⟩

/-! ### Inversion lemmas for the checked primitives -/

theorem checked_sub_eq_some {a b c : Nat} :
    checked_sub a b = some c ↔ b ≤ a ∧ a - b = c := by
  unfold checked_sub; split <;> simp_all

theorem checked_add_u64_eq_some {a b c : Nat} :
    checked_add_u64 a b = some c ↔ a + b ≤ u64max ∧ a + b = c := by
  unfold checked_add_u64; split <;> simp_all

theorem checked_mul_u128_eq_some {a b c : Nat} :
    checked_mul_u128 a b = some c ↔ a * b < u128size ∧ a * b = c := by
  unfold checked_mul_u128; split <;> simp_all

theorem checked_add_u128_eq_some {a b c : Nat} :
    checked_add_u128 a b = some c ↔ a + b < u128size ∧ a + b = c := by
  unfold checked_add_u128; split <;> simp_all

theorem checked_div_eq_some {a b c : Nat} :
    checked_div a b = some c ↔ b ≠ 0 ∧ a / b = c := by
  unfold checked_div; split <;> simp_all

theorem try_into_u64_eq_some {a c : Nat} :
    try_into_u64 a = some c ↔ a ≤ u64max ∧ a = c := by
  unfold try_into_u64; split <;> simp_all

theorem checked_ceil_div_eq_some {a b c : Nat} :
    checked_ceil_div a b = some c ↔ b ≠ 0 ∧ ceilDiv a b = c := by
  unfold checked_ceil_div; split <;> simp_all

theorem get_amount_by_share_eq_some {v : Vault} {t share supply r : Nat} :
    v.get_amount_by_share t share supply = some r ↔
      v.locked_profit t ≤ v.total_amount ∧
      share * (v.total_amount - v.locked_profit t) < u128size ∧
      supply ≠ 0 ∧
      share * (v.total_amount - v.locked_profit t) / supply ≤ u64max ∧
      share * (v.total_amount - v.locked_profit t) / supply = r := by
  simp only [Vault.get_amount_by_share, Vault.get_unlocked_amount,
    Option.bind_eq_bind, Option.bind_eq_some, checked_sub_eq_some,
    checked_mul_u128_eq_some, checked_div_eq_some, try_into_u64_eq_some]
  constructor
  · rintro ⟨total, ⟨h1, rfl⟩, p, ⟨h2, rfl⟩, q, ⟨h3, rfl⟩, h4, rfl⟩
    exact ⟨h1, h2, h3, h4, rfl⟩
  · rintro ⟨h1, h2, h3, h4, rfl⟩
    exact ⟨_, ⟨h1, rfl⟩, _, ⟨h2, rfl⟩, _, ⟨h3, rfl⟩, h4, rfl⟩

theorem get_unmint_amount_eq_some {v : Vault} {t amount supply r : Nat} :
    v.get_unmint_amount t amount supply = some r ↔
      v.locked_profit t ≤ v.total_amount ∧
      amount * supply < u128size ∧
      v.total_amount - v.locked_profit t ≠ 0 ∧
      amount * supply / (v.total_amount - v.locked_profit t) ≤ u64max ∧
      amount * supply / (v.total_amount - v.locked_profit t) = r := by
  simp only [Vault.get_unmint_amount, Vault.get_unlocked_amount,
    Option.bind_eq_bind, Option.bind_eq_some, checked_sub_eq_some,
    checked_mul_u128_eq_some, checked_div_eq_some, try_into_u64_eq_some]
  constructor
  · rintro ⟨total, ⟨h1, rfl⟩, p, ⟨h2, rfl⟩, q, ⟨h3, rfl⟩, h4, rfl⟩
    exact ⟨h1, h2, h3, h4, rfl⟩
  · rintro ⟨h1, h2, h3, h4, rfl⟩
    exact ⟨_, ⟨h1, rfl⟩, _, ⟨h2, rfl⟩, _, ⟨h3, rfl⟩, h4, rfl⟩

/-! ### Arithmetic helpers -/

theorem div_le_of_le_mul {x s a : Nat} (hs : s ≠ 0) (h : x ≤ a * s) : x / s ≤ a := by
  calc x / s ≤ a * s / s := Nat.div_le_div_right h
  _ = a := Nat.mul_div_cancel a (Nat.pos_of_ne_zero hs)

theorem ceilDiv_le_of_le_mul {a b c : Nat} (hb : b ≠ 0) (h : a ≤ c * b) :
    ceilDiv a b ≤ c := by
  have hpos : 0 < b := Nat.pos_of_ne_zero hb
  unfold ceilDiv
  rw [Nat.div_le_iff_le_mul_add_pred hpos, Nat.mul_comm b c]
  omega

theorem mul_lt_u128size {a b : Nat} (ha : a ≤ u64max) (hb : b ≤ u64max) :
    a * b < u128size := by
  calc a * b ≤ u64max * u64max := Nat.mul_le_mul ha hb
  _ < u128size := by decide

theorem add_lt_u128size {a b : Nat} (ha : a ≤ u64max) (hb : b ≤ u64max) :
    a + b < u128size := by
  have : u64max + u64max < u128size := by decide
  omega

/-! ### Structural inversion of the quoting pipeline -/

theorem quote_intermediates_spec {e : MeteoraCpEdge} {t a : Nat} {d : Bool}
    {p : QuoteIntermediates} (h : quote_intermediates e t a d = some p) :
    e.a_vault.get_amount_by_share t e.a_vault_lp_token.amount
      e.a_vault_lp_mint.supply = some p.token_a_amount ∧
    e.b_vault.get_amount_by_share t e.b_vault_lp_token.amount
      e.b_vault_lp_mint.supply = some p.token_b_amount ∧
    p.in_token_total_amount = (if d then p.token_a_amount else p.token_b_amount) ∧
    p.out_token_total_amount = (if d then p.token_b_amount else p.token_a_amount) ∧
    e.pool.fees.trading_fee a = some p.trade_fee ∧
    e.pool.fees.owner_trading_fee a = some p.owner_fee ∧
    p.owner_fee ≤ a ∧ p.owner_fee ≤ u64max ∧
    p.in_amount_after_owner_fee = a - p.owner_fee ∧
    (if d then e.a_vault else e.b_vault).get_unmint_amount t
      p.in_amount_after_owner_fee
      (if d then e.a_vault_lp_mint.supply else e.b_vault_lp_mint.supply) =
      some p.in_lp ∧
    Vault.get_amount_by_share
      { (if d then e.a_vault else e.b_vault) with
        total_amount := (if d then e.a_vault else e.b_vault).total_amount +
          p.in_amount_after_owner_fee } t
      (p.in_lp + (if d then e.a_vault_lp_token.amount else e.b_vault_lp_token.amount))
      ((if d then e.a_vault_lp_mint.supply else e.b_vault_lp_mint.supply) + p.in_lp) =
      some p.after_in_token_total_amount ∧
    p.in_token_total_amount ≤ p.after_in_token_total_amount ∧
    p.actual_in_amount = p.after_in_token_total_amount - p.in_token_total_amount ∧
    p.trade_fee ≤ p.actual_in_amount ∧ p.trade_fee ≤ u64max ∧
    p.actual_in_amount_after_fee = p.actual_in_amount - p.trade_fee := by
  unfold quote_intermediates at h
  simp only [Option.bind_eq_bind] at h
  rw [Option.bind_eq_some] at h; obtain ⟨tA, hA, h⟩ := h
  rw [Option.bind_eq_some] at h; obtain ⟨tB, hB, h⟩ := h
  rw [Option.bind_eq_some] at h; obtain ⟨tf, htf, h⟩ := h
  rw [Option.bind_eq_some] at h; obtain ⟨ofe, hof, h⟩ := h
  rw [Option.bind_eq_some] at h; obtain ⟨of64, hof64, h⟩ := h
  rw [Option.bind_eq_some] at h; obtain ⟨net, hnet, h⟩ := h
  rw [Option.bind_eq_some] at h; obtain ⟨inlp, hinlp, h⟩ := h
  rw [Option.bind_eq_some] at h; obtain ⟨ntot, hntot, h⟩ := h
  rw [Option.bind_eq_some] at h; obtain ⟨sh, hsh, h⟩ := h
  rw [Option.bind_eq_some] at h; obtain ⟨nsup, hnsup, h⟩ := h
  rw [Option.bind_eq_some] at h; obtain ⟨aft, haft, h⟩ := h
  rw [Option.bind_eq_some] at h; obtain ⟨act, hact, h⟩ := h
  rw [Option.bind_eq_some] at h; obtain ⟨tf64, htf64, h⟩ := h
  rw [Option.bind_eq_some] at h; obtain ⟨src, hsrc, h⟩ := h
  rw [Option.some.injEq] at h
  subst h
  rw [try_into_u64_eq_some] at hof64 htf64
  obtain ⟨hofle, rfl⟩ := hof64
  obtain ⟨htfle, rfl⟩ := htf64
  rw [checked_sub_eq_some] at hnet hact hsrc
  obtain ⟨hole, rfl⟩ := hnet
  obtain ⟨hactle, rfl⟩ := hact
  obtain ⟨hsrcle, rfl⟩ := hsrc
  rw [checked_add_u64_eq_some] at hntot hsh hnsup
  obtain ⟨hntotle, rfl⟩ := hntot
  obtain ⟨hshle, rfl⟩ := hsh
  obtain ⟨hnsuple, rfl⟩ := hnsup
  simp only [apply_ite MintAccount.supply, apply_ite TokenAccount.amount] at hinlp haft
  dsimp only
  exact ⟨hA, hB, rfl, rfl, htf, hof, hole, hofle, rfl, hinlp, haft, hactle, rfl,
    hsrcle, htfle, rfl⟩

theorem quote_intermediates_u64_bounds {e : MeteoraCpEdge} {t a : Nat} {d : Bool}
    {p : QuoteIntermediates} (h : quote_intermediates e t a d = some p) :
    p.in_token_total_amount ≤ u64max ∧ p.out_token_total_amount ≤ u64max ∧
    p.actual_in_amount_after_fee ≤ u64max := by
  obtain ⟨hA, hB, hin, hout, -, -, -, -, -, -, haft, hle, hact, hfle, -, hsrc⟩ :=
    quote_intermediates_spec h
  rw [get_amount_by_share_eq_some] at hA hB haft
  have htA : p.token_a_amount ≤ u64max := by
    have := hA.2.2.2.1; rw [hA.2.2.2.2] at this; exact this
  have htB : p.token_b_amount ≤ u64max := by
    have := hB.2.2.2.1; rw [hB.2.2.2.2] at this; exact this
  have haftle : p.after_in_token_total_amount ≤ u64max := by
    have := haft.2.2.2.1; rw [haft.2.2.2.2] at this; exact this
  refine ⟨?_, ?_, ?_⟩
  · rw [hin]; split <;> assumption
  · rw [hout]; split <;> assumption
  · omega

theorem quote_exact_in_spec {e : MeteoraCpEdge} {t a : Nat} {d : Bool} {q : Quote}
    (h : quote_exact_in e t a d = some q) :
    ∃ p das, quote_intermediates e t a d = some p ∧
      invariant_swap p.in_token_total_amount p.out_token_total_amount
        p.actual_in_amount_after_fee = some das ∧
      q.in_amount = a ∧ q.fee_amount = p.trade_fee := by
  unfold quote_exact_in at h
  simp only [Option.bind_eq_bind] at h
  rw [Option.bind_eq_some] at h; obtain ⟨p, hp, h⟩ := h
  rw [Option.bind_eq_some] at h; obtain ⟨das, hdas, h⟩ := h
  rw [Option.bind_eq_some] at h; obtain ⟨lp, hlp, h⟩ := h
  rw [Option.bind_eq_some] at h; obtain ⟨out, hout, h⟩ := h
  refine ⟨p, das, hp, hdas, ?_⟩
  split at h <;> split at h <;>
    first
    | (rw [Option.some.injEq] at h; subst h; exact ⟨rfl, rfl⟩)
    | simp at h

/-! ### The claims -/

/-- C1 (amended): whenever `quote_exact_in` reaches the invariant-solve step
(its intermediate computation succeeds, yielding `p`), the step computes
`destination_amount_swapped` as `swap_destination_amount` minus the ceiling
of `(swap_source_amount * swap_destination_amount) /
(swap_source_amount + actual_input_after_fee)` — the double-width product
and sum cannot overflow for the 64-bit-bounded inputs the pipeline
produces, the ceiling quotient never exceeds `swap_destination_amount` (so
the final subtraction cannot underflow), and the step returns `none`
exactly when the divisor `swap_source_amount + actual_input_after_fee` is
zero (division failure) or the subtraction yields zero. -/
theorem c1_invariant_solve (e : MeteoraCpEdge) (t a : Nat) (d : Bool)
    (p : QuoteIntermediates) (h : quote_intermediates e t a d = some p) :
    ceilDiv (p.in_token_total_amount * p.out_token_total_amount)
        (p.in_token_total_amount + p.actual_in_amount_after_fee) ≤
      p.out_token_total_amount ∧
    invariant_swap p.in_token_total_amount p.out_token_total_amount
        p.actual_in_amount_after_fee =
      if p.in_token_total_amount + p.actual_in_amount_after_fee = 0 then none
      else if p.out_token_total_amount -
          ceilDiv (p.in_token_total_amount * p.out_token_total_amount)
            (p.in_token_total_amount + p.actual_in_amount_after_fee) = 0 then none
      else some (p.out_token_total_amount -
          ceilDiv (p.in_token_total_amount * p.out_token_total_amount)
            (p.in_token_total_amount + p.actual_in_amount_after_fee)) := by
  obtain ⟨hssa, hsda, hsrc⟩ := quote_intermediates_u64_bounds h
  set ssa := p.in_token_total_amount with hssadef
  set sda := p.out_token_total_amount with hsdadef
  set src := p.actual_in_amount_after_fee with hsrcdef
  have hceil : ssa + src ≠ 0 → ceilDiv (ssa * sda) (ssa + src) ≤ sda := by
    intro hz
    apply ceilDiv_le_of_le_mul hz
    calc ssa * sda ≤ (ssa + src) * sda :=
        Nat.mul_le_mul_right _ (Nat.le_add_right _ _)
    _ = sda * (ssa + src) := Nat.mul_comm _ _
  constructor
  · by_cases hz : ssa + src = 0
    · rw [hz]; simp [ceilDiv]
    · exact hceil hz
  · unfold invariant_swap checked_mul_u128 checked_add_u128 checked_ceil_div
      checked_sub
    simp only [Option.bind_eq_bind]
    rw [if_pos (mul_lt_u128size hssa hsda)]
    rw [Option.some_bind]
    rw [if_pos (add_lt_u128size hssa hsrc)]
    rw [Option.some_bind]
    by_cases hz : ssa + src = 0
    · rw [if_pos hz, if_pos hz, Option.none_bind]
    · rw [if_neg hz, if_neg hz, Option.some_bind]
      rw [if_pos (hceil hz), Option.some_bind]

/-- C1 counterexample: a reachable snapshot (`edgeDivZero` at time 0 with
input amount 0) whose intermediate computation succeeds with
`swap_source_amount = 0`, `swap_destination_amount = 2` and
`actual_input_after_fee = 0`: the invariant-solve step returns `none`
(checked division by the zero `new_source`), although the claim's stated
condition does not hold there — `swap_destination_amount` minus the ceiling
quotient is 2, which neither underflows nor is zero, so "returns None
exactly when the final subtraction underflows or yields zero" is false. -/
theorem c1_counterexample :
    quote_intermediates edgeDivZero 0 0 true = some interDivZero ∧
    invariant_swap interDivZero.in_token_total_amount
      interDivZero.out_token_total_amount
      interDivZero.actual_in_amount_after_fee = none ∧
    interDivZero.out_token_total_amount -
      ceilDiv (interDivZero.in_token_total_amount *
          interDivZero.out_token_total_amount)
        (interDivZero.in_token_total_amount +
          interDivZero.actual_in_amount_after_fee) = 2 :=
  ⟨by decide, by decide, by decide⟩

/-- C1 witness: on the concrete snapshot `edgeMain` (time 0, input 100) the
theorem's hypothesis holds and the characterization evaluates the invariant
solve to `some 181` (the step is reached with before-balances 1000 and 2000
and credited fee-adjusted input 100). -/
theorem c1_witness :
    invariant_swap interMain.in_token_total_amount
      interMain.out_token_total_amount
      interMain.actual_in_amount_after_fee = some 181 := by
  have h := (c1_invariant_solve edgeMain 0 100 true interMain (by decide)).2
  exact h.trans (by decide)

/-- C2 (confirmed): for every successful quote, the quoter derives the
actual credited input as the after-deposit balance minus the before
balance: the newly minted shares come from `get_unmint_amount` of the net
amount at the current supply, the after balance revalues the old LP
holding's shares plus the newly minted shares against the old supply plus
the newly minted shares on the scratch copy of the input vault whose total
was bumped by the net amount, and `actual_in_amount` is exactly that
difference — never the nominal net amount. -/
theorem c2_actual_credited_input (e : MeteoraCpEdge) (t a : Nat) (d : Bool)
    (q : Quote) (h : quote_exact_in e t a d = some q) :
    ∃ p : QuoteIntermediates, quote_intermediates e t a d = some p ∧
      p.in_token_total_amount = (if d then p.token_a_amount else p.token_b_amount) ∧
      (if d then e.a_vault else e.b_vault).get_unmint_amount t
        p.in_amount_after_owner_fee
        (if d then e.a_vault_lp_mint.supply else e.b_vault_lp_mint.supply) =
        some p.in_lp ∧
      Vault.get_amount_by_share
        { (if d then e.a_vault else e.b_vault) with
          total_amount := (if d then e.a_vault else e.b_vault).total_amount +
            p.in_amount_after_owner_fee } t
        (p.in_lp +
          (if d then e.a_vault_lp_token.amount else e.b_vault_lp_token.amount))
        ((if d then e.a_vault_lp_mint.supply else e.b_vault_lp_mint.supply) +
          p.in_lp) =
        some p.after_in_token_total_amount ∧
      p.in_token_total_amount ≤ p.after_in_token_total_amount ∧
      p.actual_in_amount = p.after_in_token_total_amount - p.in_token_total_amount := by
  obtain ⟨p, das, hp, -, -, -⟩ := quote_exact_in_spec h
  obtain ⟨-, -, hin, -, -, -, -, -, -, hinlp, haft, hle, hact, -, -, -⟩ :=
    quote_intermediates_spec hp
  exact ⟨p, hp, hin, hinlp, haft, hle, hact⟩

/-- C2 witness: the theorem applied to the concrete quote of `edgeMain` at
time 0 for input 100 (where the credited input is 100 = 1100 - 1000). -/
theorem c2_witness :
    ∃ p : QuoteIntermediates, quote_intermediates edgeMain 0 100 true = some p ∧
      p.actual_in_amount =
        p.after_in_token_total_amount - p.in_token_total_amount := by
  obtain ⟨p, hp, -, -, -, -, hact⟩ :=
    c2_actual_credited_input edgeMain 0 100 true ⟨100, 180, 0, 1⟩ (by decide)
  exact ⟨p, hp, hact⟩

/-- C3 (confirmed): in every successful quote both fees are computed from
the raw nominal input amount, the owner fee is subtracted from the nominal
amount to obtain the deposited net amount (which feeds the simulated
deposit), and the trading fee is subtracted from the actual credited input
— not from the nominal amount — to obtain the amount entering the
constant-product invariant solve; the reported fee is the trading fee. -/
theorem c3_fee_application (e : MeteoraCpEdge) (t a : Nat) (d : Bool)
    (q : Quote) (h : quote_exact_in e t a d = some q) :
    ∃ p : QuoteIntermediates, quote_intermediates e t a d = some p ∧
      e.pool.fees.trading_fee a = some p.trade_fee ∧
      e.pool.fees.owner_trading_fee a = some p.owner_fee ∧
      p.in_amount_after_owner_fee = a - p.owner_fee ∧
      (if d then e.a_vault else e.b_vault).get_unmint_amount t
        p.in_amount_after_owner_fee
        (if d then e.a_vault_lp_mint.supply else e.b_vault_lp_mint.supply) =
        some p.in_lp ∧
      p.actual_in_amount_after_fee = p.actual_in_amount - p.trade_fee ∧
      (∃ das, invariant_swap p.in_token_total_amount p.out_token_total_amount
          p.actual_in_amount_after_fee = some das) ∧
      q.fee_amount = p.trade_fee := by
  obtain ⟨p, das, hp, hdas, -, hfee⟩ := quote_exact_in_spec h
  obtain ⟨-, -, -, -, htf, hof, -, -, hnet, hinlp, -, -, -, -, -, hsrc⟩ :=
    quote_intermediates_spec hp
  exact ⟨p, hp, htf, hof, hnet, hinlp, hsrc, ⟨das, hdas⟩, hfee⟩

/-- C3 witness: the theorem applied to the concrete quote of `edgeMain` at
time 0 for input 100 with the zero-fee schedule. -/
theorem c3_witness :
    ∃ p : QuoteIntermediates, quote_intermediates edgeMain 0 100 true = some p ∧
      edgeMain.pool.fees.trading_fee 100 = some p.trade_fee ∧
      p.in_amount_after_owner_fee = 100 - p.owner_fee := by
  obtain ⟨p, hp, htf, -, hnet, -, -, -, -⟩ :=
    c3_fee_application edgeMain 0 100 true ⟨100, 180, 0, 1⟩ (by decide)
  exact ⟨p, hp, htf, hnet⟩

/-- C4 (amended): on the spec's own fixture (source 1 000 000, destination
2 000 000, fee-adjusted input 10 000) the invariant solve computes
invariant = 2 x 10^12 and new_source = 1 010 000, but the checked ceiling
quotient is 1 980 199 (2 x 10^12 = 1 010 000 * 1 980 198 + 20 000 000, so
the ceiling rounds up), giving destination_amount_swapped
= 2 000 000 - 1 980 199 = 19 801 — not the 19 802 the fixture states,
which is what floor division would give. -/
theorem c4_fixture :
    1000000 * 2000000 = 2 * 10 ^ 12 ∧
    1000000 + 10000 = 1010000 ∧
    checked_ceil_div (2 * 10 ^ 12) 1010000 = some 1980199 ∧
    invariant_swap 1000000 2000000 10000 = some (2000000 - 1980199) ∧
    2000000 - 1980199 = 19801 :=
  ⟨by decide, by decide, by decide, by decide, by decide⟩

/-- C4 counterexample: the invariant solve on the claim's exact triple
returns `some 19801`, not the claimed `some 19802`. -/
theorem c4_counterexample :
    invariant_swap 1000000 2000000 10000 = some 19801 ∧
    invariant_swap 1000000 2000000 10000 ≠ some 19802 :=
  ⟨by decide, by decide⟩

/-- C5 (amended): an arithmetic failure inside the quoting computation is
surfaced by the dex-level `quote` as the same defined zero quote
`{0, 0, 0, token_a_mint}` that a disabled pool yields — it is not a
distinguishable outcome, only a non-error, non-panic zero quote. -/
theorem c5_failure_zero_quote (e : MeteoraCpEdge) (t a : Nat) (d : Bool)
    (hEn : e.pool.enabled = true)
    (hCt : e.pool.curve_type = CurveType.constantProduct)
    (hFail : quote_exact_in e t a d = none) :
    dex_quote e (some t) a d = Except.ok (zero_quote e.pool) ∧
    dex_quote { e with pool := { e.pool with enabled := false } } (some t) a d =
      Except.ok (zero_quote e.pool) := by
  constructor
  · unfold dex_quote
    rw [if_neg (by simp [hEn]), if_neg (by simp [hCt])]
    dsimp only
    rw [hFail]
  · unfold dex_quote
    rw [if_pos rfl]
    rfl

/-- C5 counterexample: the enabled constant-product snapshot
`edgeFailSupply` (whose first share valuation fails by a zero LP supply)
and the disabled snapshot `edgeDisabled` produce the very same
`Except.ok {0, 0, 0, token_a}` from the dex-level `quote` — an arithmetic
failure and an inapplicable venue are conflated, refuting the claim that
the three outcomes are mutually distinguishable. -/
theorem c5_counterexample :
    edgeDisabled.pool.enabled = false ∧
    edgeFailSupply.pool.enabled = true ∧
    edgeFailSupply.pool.curve_type = CurveType.constantProduct ∧
    quote_exact_in edgeFailSupply 0 100 true = none ∧
    dex_quote edgeFailSupply (some 0) 100 true =
      dex_quote edgeDisabled (some 0) 100 true ∧
    dex_quote edgeFailSupply (some 0) 100 true = Except.ok ⟨0, 0, 0, 1⟩ :=
  ⟨rfl, rfl, rfl, by decide, rfl, rfl⟩

/-- C5 witness: the theorem applied to the concrete failing snapshot
`edgeFailSupply` at time 0 with input 100. -/
theorem c5_witness :
    dex_quote edgeFailSupply (some 0) 100 true =
      Except.ok (zero_quote edgeFailSupply.pool) ∧
    dex_quote { edgeFailSupply with pool :=
        { edgeFailSupply.pool with enabled := false } } (some 0) 100 true =
      Except.ok (zero_quote edgeFailSupply.pool) :=
  c5_failure_zero_quote edgeFailSupply 0 100 true rfl rfl (by decide)

/-- C6 (confirmed): for every requested input amount (and even with no
clock available), a pool that is disabled or whose curve type is not
constant-product yields the defined zero quote
`{in_amount 0, out_amount 0, fee_amount 0, fee_mint token_a}` from the
dex-level `quote`, never an error. -/
theorem c6_zero_quote_inapplicable (e : MeteoraCpEdge) (clock : Option Nat)
    (amount_in : Nat) (d : Bool)
    (h : e.pool.enabled = false ∨ e.pool.curve_type ≠ CurveType.constantProduct) :
    dex_quote e clock amount_in d = Except.ok ⟨0, 0, 0, e.pool.token_a_mint⟩ := by
  unfold dex_quote zero_quote
  rcases h with h | h
  · rw [if_pos h]
  · by_cases he : e.pool.enabled = false
    · rw [if_pos he]
    · rw [if_neg he, if_pos h]

/-- C6 witness: the theorem applied to the disabled snapshot `edgeDisabled`
with an arbitrary amount and no clock. -/
theorem c6_witness :
    edgeDisabled.pool.enabled = false ∧
    dex_quote edgeDisabled none 12345 true = Except.ok ⟨0, 0, 0, 1⟩ :=
  ⟨rfl, c6_zero_quote_inapplicable edgeDisabled none 12345 true (Or.inl rfl)⟩

/-- C7 (confirmed): when the pipeline reaches the final output amount
`out`, the quote fails (returns `none`) if `out` exceeds the output vault's
underlying token-account balance, and succeeds with exactly `out` (not a
truncated or clamped amount) if `out` is within that balance. -/
theorem c7_reserve_bound (e : MeteoraCpEdge) (t a : Nat) (d : Bool)
    (p : QuoteIntermediates) (das lp out : Nat)
    (h1 : quote_intermediates e t a d = some p)
    (h2 : invariant_swap p.in_token_total_amount p.out_token_total_amount
      p.actual_in_amount_after_fee = some das)
    (h3 : (if d then e.b_vault else e.a_vault).get_unmint_amount t das
      (if d then e.b_vault_lp_mint.supply else e.a_vault_lp_mint.supply) = some lp)
    (h4 : (if d then e.b_vault else e.a_vault).get_amount_by_share t lp
      (if d then e.b_vault_lp_mint.supply else e.a_vault_lp_mint.supply) =
      some out) :
    ((if d then e.b_vault_token.amount else e.a_vault_token.amount) < out →
      quote_exact_in e t a d = none) ∧
    (out ≤ (if d then e.b_vault_token.amount else e.a_vault_token.amount) →
      quote_exact_in e t a d =
        some ⟨a, out, p.trade_fee,
          if d then e.pool.token_a_mint else e.pool.token_b_mint⟩) := by
  unfold quote_exact_in
  simp only [Option.bind_eq_bind]
  rw [h1, Option.some_bind, h2, Option.some_bind]
  simp only [apply_ite MintAccount.supply, apply_ite TokenAccount.amount]
  rw [h3, Option.some_bind, h4, Option.some_bind]
  constructor
  · intro hgt
    rw [if_pos hgt]
  · intro hle
    rw [if_neg (Nat.not_lt.mpr hle)]

/-- C7 witness: on `edgeMain` the final output 180 is within the reserve
2000, and the theorem yields the exact quote `{100, 180, 0, token_a}`. -/
theorem c7_witness :
    quote_exact_in edgeMain 0 100 true = some ⟨100, 180, 0, 1⟩ := by
  have h := (c7_reserve_bound edgeMain 0 100 true interMain 181 90 180
    (by decide) (by decide) (by decide) (by decide)).2 (by decide)
  exact h

/-- C9 (confirmed): converting a token amount into freshly minted shares
with `get_unmint_amount` and revaluing those shares with
`get_amount_by_share` against the supply increased by the minted shares
yields at most the original amount — both on the post-deposit vault (total
bumped by the amount, as the quoter does it) and on the unchanged vault;
the share round-trip never creates value from rounding. -/
theorem c9_share_round_trip (v : Vault) (t amount supply minted : Nat)
    (h : v.get_unmint_amount t amount supply = some minted) :
    (∀ val,
        Vault.get_amount_by_share { v with total_amount := v.total_amount + amount }
          t minted (supply + minted) = some val → val ≤ amount) ∧
    (∀ val, v.get_amount_by_share t minted (supply + minted) = some val →
        val ≤ amount) := by
  rw [get_unmint_amount_eq_some] at h
  obtain ⟨hlock, hmul, hU, hle, hminted⟩ := h
  have hkey : minted * (v.total_amount - v.locked_profit t) ≤ amount * supply := by
    rw [← hminted]; exact Nat.div_mul_le_self _ _
  constructor
  · intro val hval
    rw [get_amount_by_share_eq_some] at hval
    obtain ⟨hlock', hmul', hsup', hle', hv⟩ := hval
    simp only at hlock' hmul' hv
    have hunlocked : v.total_amount + amount - v.locked_profit t =
        (v.total_amount - v.locked_profit t) + amount := by omega
    rw [hunlocked] at hv
    subst hv
    apply div_le_of_le_mul hsup'
    calc minted * ((v.total_amount - v.locked_profit t) + amount)
        = minted * (v.total_amount - v.locked_profit t) + minted * amount := by ring
    _ ≤ amount * supply + amount * minted := by
        exact Nat.add_le_add hkey (le_of_eq (Nat.mul_comm minted amount))
    _ = amount * (supply + minted) := by ring
  · intro val hval
    rw [get_amount_by_share_eq_some] at hval
    obtain ⟨hlock', hmul', hsup', hle', hv⟩ := hval
    subst hv
    apply div_le_of_le_mul hsup'
    calc minted * (v.total_amount - v.locked_profit t) ≤ amount * supply := hkey
    _ ≤ amount * (supply + minted) := Nat.mul_le_mul_left amount (Nat.le_add_right _ _)

/-- C9 witness: depositing 100 into a vault of 1000 with supply 500 mints
50 shares; revaluing 50 shares at supply 550 on the bumped vault (1100)
returns exactly 100, which is at most the deposit. -/
theorem c9_witness :
    Vault.get_unmint_amount ⟨1000, noLock⟩ 0 100 500 = some 50 ∧
    (100 : Nat) ≤ 100 :=
  ⟨by decide,
    (c9_share_round_trip ⟨1000, noLock⟩ 0 100 500 50 (by decide)).1 100 (by decide)⟩

/-- C10 (confirmed): `supports_exact_out` is false, and `quote_exact_out`
aborts unconditionally with the `unreachable!` message for every requested
output amount — it never returns a quote or an error value. -/
theorem c10_exact_out_aborts :
    supports_exact_out = false ∧
    ∀ out_amount : Nat, quote_exact_out out_amount =
      ExactOutOutcome.aborted "quote_exact_out not supported" :=
  ⟨rfl, fun _ => rfl⟩

end Autobahn
